import Mathlib

/-!
# On-Chain Expense Tracker: the client of `frontend/src/App.js`

A shallow embedding of the React component's asynchronous handlers
(`loadExpenses`, `loadPeople`, `loadMyName`, `registerPerson`, `addExpense`,
`checkRegistration`) as pure state-passing functions.

* The deployed contract is an external service: its queries are functions of a
  ledger state `W` that may fail, its two mutations return a new ledger state
  together with the outcome of the transaction.
* The `ethers` helpers and the JavaScript built-ins whose result depends on
  floating point or on the locale are fields of `Lib`.
* Every handler returns the React state it leaves behind, the ledger state, the
  list of contract methods it invoked and the alerts it raised.
* A `Promise.all` fan-out is written as a `List.map`: the queries it issues do
  not change the ledger, so the joined result does not depend on the schedule.
-/

namespace ExpenseTracker

/-! ## JavaScript and ethers helpers -/

/-- ECMAScript `WhiteSpace` and `LineTerminator` code points, the characters
`String.prototype.trim` strips. -/
def jsIsWhiteSpace (c : Char) : Bool :=
  let n := c.toNat
  n == 0x09 || n == 0x0A || n == 0x0B || n == 0x0C || n == 0x0D || n == 0x20 ||
  n == 0xA0 || n == 0x1680 || (0x2000 ≤ n && n ≤ 0x200A) || n == 0x2028 ||
  n == 0x2029 || n == 0x202F || n == 0x205F || n == 0x3000 || n == 0xFEFF

/-- `String.prototype.trim` on the list of characters. -/
def jsTrimChars (cs : List Char) : List Char :=
  ((cs.dropWhile jsIsWhiteSpace).reverse.dropWhile jsIsWhiteSpace).reverse

/-- `String.prototype.trim`. -/
def jsTrim (s : String) : String := String.mk (jsTrimChars s.data)

/-- `ethers.constants.AddressZero`. -/
def AddressZero : String := "0x0000000000000000000000000000000000000000"

/-- `BigNumber.prototype.toNumber` of ethers v5 on an unsigned value: it throws
(here `none`) when the value needs more than 53 bits. -/
def toNumber (b : Nat) : Option Nat := if b < 2 ^ 53 then some b else none

/-- What the component takes from `ethers.utils` and from the JavaScript
runtime. -/
structure Lib where
  /-- `ethers.utils.parseEther`: decimal string to base units, or the message of
  the error it throws. -/
  parseEther : String → Except String Int
  /-- `ethers.utils.formatEther`: base units to a decimal string. -/
  formatEther : Int → String
  /-- `new Date(ms).toLocaleString()`. -/
  dateString : Nat → String
  /-- `s < 0` for a string `s`, that is `ToNumber(s) < 0`. -/
  stringLtZero : String → Bool

/-- A value held in an amount field of the form: the number literal `0` the
form starts with, or the text of the input element. -/
inductive FormAmount where
  | num (n : Int)
  | text (s : String)
deriving DecidableEq, Repr

/-- The comparison `amount < 0`. -/
def FormAmount.ltZero (lib : Lib) : FormAmount → Bool
  | .num n => decide (n < 0)
  | .text s => lib.stringLtZero s

/-- The call `amount.toString()`. -/
def FormAmount.toStr : FormAmount → String
  | .num n => toString n
  | .text s => s

/-! ## The contract -/

/-- Result of `getExpenseBasicInfo`, the tuple `[id, label, timestamp]`. -/
structure BasicInfo where
  id : Nat
  label : String
  timestamp : Nat
deriving DecidableEq, Repr

/-- Result of `getPerson`. -/
structure PersonRecord where
  name : String
  walletAddress : String
deriving DecidableEq, Repr

/-- How a mutating call ended: the call itself threw, `tx.wait()` threw, or the
transaction was confirmed. -/
inductive TxOutcome where
  | submitFailed (message : String)
  | waitFailed (message : String)
  | confirmed
deriving DecidableEq, Repr

/-- The contract instance over a ledger state `W`. -/
structure Contract (W : Type) where
  expenseCount : W → Except String Nat
  getExpenseBasicInfo : W → Nat → Except String BasicInfo
  getExpenseParticipants : W → Nat → Except String (List String)
  getAmountPaid : W → Nat → String → Except String Int
  getAmountOwed : W → Nat → String → Except String Int
  getAllRegisteredPeople : W → Except String (List String)
  getPerson : W → String → Except String PersonRecord
  getNetBalance : W → String → Except String Int
  getMyName : W → Except String String
  registerPerson : W → String → TxOutcome × W
  addExpense : W → String → List String → List Int → List Int → TxOutcome × W

/-- A contract method invoked by the component, with its arguments. -/
inductive Call where
  | expenseCount
  | getExpenseBasicInfo (i : Nat)
  | getExpenseParticipants (i : Nat)
  | getAmountPaid (i : Nat) (address : String)
  | getAmountOwed (i : Nat) (address : String)
  | getAllRegisteredPeople
  | getPerson (address : String)
  | getNetBalance (address : String)
  | getMyName
  | registerPerson (name : String)
  | addExpense (label : String) (addresses : List String) (paidAmounts owedAmounts : List Int)
deriving DecidableEq, Repr

/-! ## React state -/

/-- An entry of `expense.participants` in the `expenses` state. -/
structure ParticipantData where
  address : String
  amountPaid : String
  amountOwed : String
deriving DecidableEq, Repr

/-- An element of the `expenses` state. -/
structure Expense where
  id : Nat
  label : String
  timestamp : String
  participants : List ParticipantData
deriving DecidableEq, Repr

/-- An element of the `people` state. -/
structure PersonRow where
  address : String
  name : String
  netBalance : String
deriving DecidableEq, Repr

/-- An element of the `participants` form state. -/
structure FormParticipant where
  address : String
  amountPaid : FormAmount
  amountOwed : FormAmount
deriving DecidableEq, Repr

/-- The `useState` cells of `App`. -/
structure AppState (W : Type) where
  contract : Option (Contract W)
  account : String
  isRegistered : Bool
  name : String
  myName : String
  expenses : List Expense
  people : List PersonRow
  loadingExpenses : Bool
  expenseLabel : String
  participants : List FormParticipant
  showAddExpense : Bool

/-- What a handler leaves behind. -/
structure Run (W : Type) where
  state : AppState W
  world : W
  calls : List Call
  alerts : List String

/-! ## `loadExpenses` -/

/-- The callback mapped over `participantsAddresses`, with the contract methods
it invoked. -/
def loadParticipant {W : Type} (lib : Lib) (c : Contract W) (w : W) (i : Nat)
    (address : String) : ParticipantData × List Call :=
  match c.getAmountPaid w i address with
  | .error _ => ({ address := address, amountPaid := "0", amountOwed := "0" },
      [Call.getAmountPaid i address])
  | .ok amountPaid =>
    match c.getAmountOwed w i address with
    | .error _ => ({ address := address, amountPaid := "0", amountOwed := "0" },
        [Call.getAmountPaid i address, Call.getAmountOwed i address])
    | .ok amountOwed =>
      ({ address := address, amountPaid := lib.formatEther amountPaid,
         amountOwed := lib.formatEther amountOwed },
        [Call.getAmountPaid i address, Call.getAmountOwed i address])

/-- The body of the inner `try` of the loop for index `i`: the element pushed,
or `none` when the `catch` was taken. -/
def loadExpenseAt {W : Type} (lib : Lib) (c : Contract W) (w : W) (i : Nat) :
    Option Expense × List Call :=
  match c.getExpenseBasicInfo w i with
  | .error _ => (none, [Call.getExpenseBasicInfo i])
  | .ok info =>
    match c.getExpenseParticipants w i with
    | .error _ => (none, [Call.getExpenseBasicInfo i, Call.getExpenseParticipants i])
    | .ok participantsAddresses =>
      let results := participantsAddresses.map (loadParticipant lib c w i)
      let calls := [Call.getExpenseBasicInfo i, Call.getExpenseParticipants i] ++
        (results.map Prod.snd).flatten
      match toNumber info.id with
      | none => (none, calls)
      | some id =>
        match toNumber info.timestamp with
        | none => (none, calls)
        | some seconds =>
          (some { id := id, label := info.label,
                  timestamp := lib.dateString (seconds * 1000),
                  participants := results.map Prod.fst }, calls)

/-- One iteration of `for (let i = 0; i < count; i++)` on the accumulator
`loaded`. -/
def loadStep {W : Type} (lib : Lib) (c : Contract W) (w : W)
    (acc : List Expense × List Call) (i : Nat) : List Expense × List Call :=
  match loadExpenseAt lib c w i with
  | (some e, calls) => (acc.1 ++ [e], acc.2 ++ calls)
  | (none, calls) => (acc.1, acc.2 ++ calls)

/-- The loop of `loadExpenses`, from `loaded = []`. -/
def loadLoop {W : Type} (lib : Lib) (c : Contract W) (w : W) (count : Nat) :
    List Expense × List Call :=
  (List.range count).foldl (loadStep lib c w) ([], [])

/-- The callback `loadExpenses`; `contract` and `isRegistered` are the values
captured by `useCallback`, `st` is the state the setters act on. -/
def loadExpenses {W : Type} (lib : Lib) (contract : Option (Contract W))
    (isRegistered : Bool) (w : W) (st : AppState W) : Run W :=
  match contract with
  | none => { state := st, world := w, calls := [], alerts := [] }
  | some c =>
    if !isRegistered then { state := st, world := w, calls := [], alerts := [] }
    else
      match c.expenseCount w with
      | .error _ =>
        { state := { st with loadingExpenses := false }, world := w,
          calls := [Call.expenseCount],
          alerts := ["Could not load expenses. Check console."] }
      | .ok count =>
        let loaded := loadLoop lib c w count
        { state := { st with expenses := loaded.1, loadingExpenses := false },
          world := w, calls := Call.expenseCount :: loaded.2, alerts := [] }

/-! ## `loadPeople` and `loadMyName` -/

/-- The callback mapped over `addresses` in `loadPeople`: the row, or the error
its promise rejects with, and the contract methods it invoked. -/
def loadPerson {W : Type} (lib : Lib) (c : Contract W) (w : W) (address : String) :
    Except String PersonRow × List Call :=
  match c.getPerson w address with
  | .error e => (.error e, [Call.getPerson address])
  | .ok person =>
    match c.getNetBalance w address with
    | .error e => (.error e, [Call.getPerson address, Call.getNetBalance address])
    | .ok netBalance =>
      (.ok { address := address, name := person.name,
             netBalance := lib.formatEther netBalance },
        [Call.getPerson address, Call.getNetBalance address])

/-- The value `Promise.all` resolves with: every result in order, or `none`
when one of the promises rejected. -/
def promiseAll {α : Type} : List (Except String α) → Option (List α)
  | [] => some []
  | .error _ :: _ => none
  | .ok a :: rest =>
    match promiseAll rest with
    | none => none
    | some as => some (a :: as)

/-- The callback `loadPeople`; `contract` is the value captured by
`useCallback`. -/
def loadPeople {W : Type} (lib : Lib) (contract : Option (Contract W)) (w : W)
    (st : AppState W) : Run W :=
  match contract with
  | none => { state := st, world := w, calls := [], alerts := [] }
  | some c =>
    match c.getAllRegisteredPeople w with
    | .error _ =>
      { state := st, world := w, calls := [Call.getAllRegisteredPeople], alerts := [] }
    | .ok addresses =>
      let results := addresses.map (loadPerson lib c w)
      let calls := Call.getAllRegisteredPeople :: (results.map Prod.snd).flatten
      match promiseAll (results.map Prod.fst) with
      | none => { state := st, world := w, calls := calls, alerts := [] }
      | some peopleData =>
        { state := { st with people := peopleData }, world := w, calls := calls,
          alerts := [] }

/-- The callback `loadMyName`; `contract` and `account` are the values captured
by `useCallback`. -/
def loadMyName {W : Type} (contract : Option (Contract W)) (account : String) (w : W)
    (st : AppState W) : Run W :=
  match contract with
  | none => { state := st, world := w, calls := [], alerts := [] }
  | some c =>
    if account = "" then { state := st, world := w, calls := [], alerts := [] }
    else
      match c.getMyName w with
      | .error _ => { state := st, world := w, calls := [Call.getMyName], alerts := [] }
      | .ok name =>
        { state := { st with myName := name }, world := w, calls := [Call.getMyName],
          alerts := [] }

/-! ## `registerPerson` -/

/-- The handler `registerPerson` of the render whose state is `s`. -/
def registerPerson {W : Type} (lib : Lib) (w : W) (s : AppState W) : Run W :=
  if jsTrim s.name = "" then
    { state := s, world := w, calls := [], alerts := ["Please enter your name."] }
  else
    match s.contract with
    | none =>
      { state := s, world := w, calls := [],
        alerts := ["Registration failed: Cannot read properties of null"] }
    | some c =>
      match c.registerPerson w (jsTrim s.name) with
      | (.submitFailed message, w1) =>
        { state := s, world := w1, calls := [Call.registerPerson (jsTrim s.name)],
          alerts := ["Registration failed: " ++ message] }
      | (.waitFailed message, w1) =>
        { state := s, world := w1, calls := [Call.registerPerson (jsTrim s.name)],
          alerts := ["Registration failed: " ++ message] }
      | (.confirmed, w1) =>
        let r1 := loadPeople lib s.contract w1 { s with isRegistered := true }
        let r2 := loadExpenses lib s.contract s.isRegistered r1.world r1.state
        let r3 := loadMyName s.contract s.account r2.world r2.state
        { state := r3.state, world := r3.world,
          calls := Call.registerPerson (jsTrim s.name) :: (r1.calls ++ r2.calls ++ r3.calls),
          alerts := "Registration successful!" :: (r1.alerts ++ r2.alerts ++ r3.alerts) }

/-! ## `addExpense` -/

/-- The test of the `for (const participant of participants)` loop. -/
def participantInvalid (lib : Lib) (p : FormParticipant) : Bool :=
  p.address = "" || p.amountPaid.ltZero lib || p.amountOwed.ltZero lib

/-- The call `participants.map(p => ethers.utils.parseEther(f(p).toString()))`:
the converted amounts, or the first error thrown. -/
def parseAmounts (lib : Lib) (f : FormParticipant → FormAmount) :
    List FormParticipant → Except String (List Int)
  | [] => .ok []
  | p :: rest =>
    match lib.parseEther (f p).toStr with
    | .error e => .error e
    | .ok v =>
      match parseAmounts lib f rest with
      | .error e => .error e
      | .ok vs => .ok (v :: vs)

/-- The form state that `addExpense` sets after a confirmed transaction. -/
def clearedForm {W : Type} (s : AppState W) : AppState W :=
  { s with expenseLabel := "",
           participants := [{ address := "", amountPaid := .num 0, amountOwed := .num 0 }],
           showAddExpense := false }

/-- The handler `addExpense` of the render whose state is `s`. -/
def addExpense {W : Type} (lib : Lib) (w : W) (s : AppState W) : Run W :=
  if jsTrim s.expenseLabel = "" then
    { state := s, world := w, calls := [], alerts := ["Enter an expense label."] }
  else if s.participants.length = 0 then
    { state := s, world := w, calls := [], alerts := ["Add at least one participant."] }
  else if s.participants.any (participantInvalid lib) then
    { state := s, world := w, calls := [], alerts := ["Participant details are invalid."] }
  else
    let addresses := s.participants.map (fun p => jsTrim p.address)
    match parseAmounts lib (fun p => p.amountPaid) s.participants with
    | .error e => { state := s, world := w, calls := [], alerts := ["Error: " ++ e] }
    | .ok paidAmounts =>
      match parseAmounts lib (fun p => p.amountOwed) s.participants with
      | .error e => { state := s, world := w, calls := [], alerts := ["Error: " ++ e] }
      | .ok owedAmounts =>
        match s.contract with
        | none =>
          { state := s, world := w, calls := [], alerts := ["Error: Cannot read properties of null"] }
        | some c =>
          let call := Call.addExpense s.expenseLabel addresses paidAmounts owedAmounts
          match c.addExpense w s.expenseLabel addresses paidAmounts owedAmounts with
          | (.submitFailed message, w1) =>
            { state := s, world := w1, calls := [call], alerts := ["Error: " ++ message] }
          | (.waitFailed message, w1) =>
            { state := s, world := w1, calls := [call], alerts := ["Error: " ++ message] }
          | (.confirmed, w1) =>
            let r1 := loadExpenses lib s.contract s.isRegistered w1 (clearedForm s)
            let r2 := loadPeople lib s.contract r1.world r1.state
            { state := r2.state, world := r2.world, calls := call :: (r1.calls ++ r2.calls),
              alerts := r1.alerts ++ r2.alerts }

/-! ## `checkRegistration` -/

/-- The effect `checkRegistration` of the render whose state is `s`. -/
def checkRegistration {W : Type} (lib : Lib) (w : W) (s : AppState W) : Run W :=
  match s.contract with
  | none => { state := s, world := w, calls := [], alerts := [] }
  | some c =>
    if s.account = "" then { state := s, world := w, calls := [], alerts := [] }
    else
      match c.getPerson w s.account with
      | .error _ =>
        { state := s, world := w, calls := [Call.getPerson s.account], alerts := [] }
      | .ok person =>
        let registered := person.walletAddress != AddressZero
        if registered then
          let st : AppState W := { s with isRegistered := registered, name := person.name }
          let r1 := loadExpenses lib s.contract s.isRegistered w st
          let r2 := loadPeople lib s.contract r1.world r1.state
          let r3 := loadMyName s.contract s.account r2.world r2.state
          { state := r3.state, world := r3.world,
            calls := Call.getPerson s.account :: (r1.calls ++ r2.calls ++ r3.calls),
            alerts := r1.alerts ++ r2.alerts ++ r3.alerts }
        else
          { state := { s with isRegistered := registered }, world := w,
            calls := [Call.getPerson s.account], alerts := [] }

/-! ## Notions used in the statements -/

/-- A fetch of step (a) for index `i` threw: `getExpenseBasicInfo` or
`getExpenseParticipants`. -/
def fetchFails {W : Type} (c : Contract W) (w : W) (i : Nat) : Bool :=
  match c.getExpenseBasicInfo w i, c.getExpenseParticipants w i with
  | .ok _, .ok _ => false
  | _, _ => true

/-- The index `i` yields no element: a fetch of step (a) threw, or `toNumber`
threw on the id or on the timestamp. -/
def skipsIndex {W : Type} (c : Contract W) (w : W) (i : Nat) : Bool :=
  match c.getExpenseBasicInfo w i, c.getExpenseParticipants w i with
  | .ok info, .ok _ => !(decide (info.id < 2 ^ 53) && decide (info.timestamp < 2 ^ 53))
  | _, _ => true

/-- The entry a participant address gets from the two amount queries: the
rendering of both amounts when both queries answer, zeros otherwise. -/
def participantEntry {W : Type} (lib : Lib) (c : Contract W) (w : W) (i : Nat)
    (address : String) : ParticipantData :=
  match c.getAmountPaid w i address, c.getAmountOwed w i address with
  | .ok paid, .ok owed =>
    { address := address, amountPaid := lib.formatEther paid,
      amountOwed := lib.formatEther owed }
  | _, _ => { address := address, amountPaid := "0", amountOwed := "0" }

/-- The snapshot element described by the answers of the contract for index
`i`, when both fetches of step (a) answer. -/
def expenseEntry {W : Type} (lib : Lib) (c : Contract W) (w : W) (i : Nat) :
    Option Expense :=
  match c.getExpenseBasicInfo w i, c.getExpenseParticipants w i with
  | .ok info, .ok addresses =>
    some { id := info.id, label := info.label,
           timestamp := lib.dateString (info.timestamp * 1000),
           participants := addresses.map (participantEntry lib c w i) }
  | _, _ => none

/-- Modelled from the spec: the contract is not part of the sources; section 3
states that `Expense.id` is "assigned by remote service, unique, monotonically
increasing" and that id order is the enumeration order. Among the first `n`
records, a later index carries a larger id. -/
def RemoteIdsIncreasing {W : Type} (c : Contract W) (w : W) (n : Nat) : Prop :=
  ∀ i j a b, i < j → j < n → c.getExpenseBasicInfo w i = .ok a →
    c.getExpenseBasicInfo w j = .ok b → a.id < b.id

/-- The call is one of the two mutations. -/
def Call.isMutation : Call → Bool
  | .registerPerson _ => true
  | .addExpense _ _ _ _ => true
  | _ => false

/-- The decimal string read back to base units with the codec, `0` when the
codec rejects it. -/
def baseUnits (lib : Lib) (s : String) : Int :=
  match lib.parseEther s with
  | .ok v => v
  | .error _ => 0

/-- Modelled from the spec: the component has no client-side aggregation;
section 3 defines NetBalance for person P as the "sum over all
Expense.participants where personRef == P of (amountPaid − amountOwed)" and
section 4.4 names it `computeNetBalance(snapshot, address)`. -/
def computeNetBalance (lib : Lib) (expenses : List Expense) (address : String) : Int :=
  (expenses.map (fun e =>
    ((e.participants.filter (fun q => q.address == address)).map
      (fun q => baseUnits lib q.amountPaid - baseUnits lib q.amountOwed)).sum)).sum

/-! ## A reference runtime and sample ledgers for the examples -/

/-- A character accepted by the pattern `[0-9.]`. -/
def isDigitOrDot (c : Char) : Bool := c.isDigit || c == '.'

/-- Value of a list of decimal digits. -/
def digitsValue (cs : List Char) : Nat := cs.foldl (fun n c => 10 * n + (c.toNat - 48)) 0

/-- The function `parseFixed(value, 18)` of ethers v5 behind `parseEther`, with
shortened error messages. -/
def parseEtherRef (s : String) : Except String Int :=
  let cs := s.data
  let negative := cs.head? == some '-'
  let body := if negative then cs.tail else cs
  if body.isEmpty || !(body.all isDigitOrDot) then .error "invalid decimal value"
  else if body == ['.'] then .error "missing value"
  else
    let whole := body.takeWhile (fun c => c != '.')
    let rest := (body.dropWhile (fun c => c != '.')).tail
    if rest.any (fun c => c == '.') then .error "too many decimal points"
    else
      let fraction := (rest.reverse.dropWhile (fun c => c == '0')).reverse
      if fraction.length > 18 then .error "fractional component exceeds decimals"
      else
        let wei : Int := digitsValue whole * 10 ^ 18 +
          digitsValue fraction * 10 ^ (18 - fraction.length)
        .ok (if negative then -wei else wei)

/-- The function `formatFixed(value, 18)` of ethers v5 behind `formatEther`. -/
def formatEtherRef (v : Int) : String :=
  let a := v.natAbs
  let digits := Nat.toDigits 10 (a % 10 ^ 18)
  let padded := List.replicate (18 - digits.length) '0' ++ digits
  let stripped := (padded.reverse.dropWhile (fun c => c == '0')).reverse
  let fraction := if stripped.isEmpty then ['0'] else stripped
  String.mk ((if v < 0 then ['-'] else []) ++ Nat.toDigits 10 (a / 10 ^ 18) ++ ['.'] ++ fraction)

/-- The comparison `s < 0` on the strings used in the examples: plain decimal
numerals with an optional sign (no exponent, no `Infinity`); any other string
counts as not negative here. -/
def stringLtZeroRef (s : String) : Bool :=
  match (jsTrim s).data with
  | '-' :: body =>
    body.all isDigitOrDot && decide ((body.filter (fun c => c == '.')).length ≤ 1) &&
      body.any (fun c => c.isDigit && c != '0')
  | _ => false

/-- The runtime of the examples; dates are written as the millisecond count,
which stands for the locale-dependent text. -/
def refLib : Lib :=
  { parseEther := parseEtherRef, formatEther := formatEtherRef,
    dateString := fun ms => toString ms, stringLtZero := stringLtZeroRef }

/-- A ledger of three records seen through a flaky connection: record 0
("Dinner", A paid 10 and owes 5, B paid 0 and owes 5) answers except for the
amount owed by B, record 1 cannot be fetched, record 2 ("Taxi", B paid 3 and
owes 3) answers. A and B are registered; the contract reports the balances
+5 and −5. -/
def flakyLedger : Contract Unit :=
  { expenseCount := fun _ => .ok 3
    getExpenseBasicInfo := fun _ i =>
      if i = 0 then .ok { id := 0, label := "Dinner", timestamp := 1700000000 }
      else if i = 2 then .ok { id := 2, label := "Taxi", timestamp := 1700000600 }
      else .error "timeout"
    getExpenseParticipants := fun _ i =>
      if i = 0 then .ok ["0xA", "0xB"] else if i = 2 then .ok ["0xB"] else .error "timeout"
    getAmountPaid := fun _ i a =>
      if i = 0 ∧ a = "0xA" then .ok 10000000000000000000
      else if i = 0 ∧ a = "0xB" then .ok 0
      else if i = 2 ∧ a = "0xB" then .ok 3000000000000000000
      else .error "timeout"
    getAmountOwed := fun _ i a =>
      if i = 0 ∧ a = "0xA" then .ok 5000000000000000000
      else if i = 2 ∧ a = "0xB" then .ok 3000000000000000000
      else .error "timeout"
    getAllRegisteredPeople := fun _ => .ok ["0xA", "0xB"]
    getPerson := fun _ a =>
      if a = "0xA" then .ok { name := "Alice", walletAddress := "0xA" }
      else if a = "0xB" then .ok { name := "Bob", walletAddress := "0xB" }
      else .ok { name := "", walletAddress := AddressZero }
    getNetBalance := fun _ a =>
      if a = "0xA" then .ok 5000000000000000000
      else if a = "0xB" then .ok (-5000000000000000000)
      else .ok 0
    getMyName := fun _ => .ok "Alice"
    registerPerson := fun _ _ => (.confirmed, ())
    addExpense := fun _ _ _ _ _ => (.confirmed, ()) }

/-- The ledger of `flakyLedger` when the record of B cannot be fetched. -/
def personFailsLedger : Contract Unit :=
  { flakyLedger with
    getPerson := fun _ a =>
      if a = "0xA" then .ok { name := "Alice", walletAddress := "0xA" }
      else .error "timeout" }

/-- A ledger whose record count cannot be fetched. -/
def countFailsLedger : Contract Unit :=
  { flakyLedger with expenseCount := fun _ => .error "timeout" }

/-- A ledger with one record whose id is `2 ^ 53`; every query answers. -/
def oversizedIdLedger : Contract Unit :=
  { flakyLedger with
    expenseCount := fun _ => .ok 1
    getExpenseBasicInfo := fun _ _ =>
      .ok { id := 9007199254740992, label := "Dinner", timestamp := 1700000000 }
    getExpenseParticipants := fun _ _ => .ok ["0xA"]
    getAmountPaid := fun _ _ _ => .ok 10000000000000000000
    getAmountOwed := fun _ _ _ => .ok 5000000000000000000 }

/-- A ledger with two records, the first with the timestamp `2 ^ 53`; every
query answers. -/
def oversizedTimestampLedger : Contract Unit :=
  { flakyLedger with
    expenseCount := fun _ => .ok 2
    getExpenseBasicInfo := fun _ i =>
      if i = 0 then .ok { id := 0, label := "Dinner", timestamp := 9007199254740992 }
      else .ok { id := i, label := "Taxi", timestamp := 1700000600 }
    getExpenseParticipants := fun _ _ => .ok ["0xA"]
    getAmountPaid := fun _ _ _ => .ok 10000000000000000000
    getAmountOwed := fun _ _ _ => .ok 5000000000000000000 }

/-- A ledger with two records whose ids do not follow the index: index 0
carries the id 5 and index 1 the id 3; every query answers. -/
def unorderedIdsLedger : Contract Unit :=
  { flakyLedger with
    expenseCount := fun _ => .ok 2
    getExpenseBasicInfo := fun _ i =>
      if i = 0 then .ok { id := 5, label := "Dinner", timestamp := 1700000000 }
      else .ok { id := 3, label := "Taxi", timestamp := 1700000600 }
    getExpenseParticipants := fun _ _ => .ok ["0xA"]
    getAmountPaid := fun _ _ _ => .ok 10000000000000000000
    getAmountOwed := fun _ _ _ => .ok 5000000000000000000 }

/-- A ledger on which transactions are submitted but never confirmed. -/
def unconfirmedLedger : Contract Unit :=
  { flakyLedger with
    registerPerson := fun _ _ => (.waitFailed "transaction failed", ())
    addExpense := fun _ _ _ _ _ => (.waitFailed "transaction failed", ()) }

/-- The state of a registered session of A on the contract `c`, holding one
person from an earlier pass and an untouched form. -/
def sessionOn (c : Contract Unit) : AppState Unit :=
  { contract := some c, account := "0xA", isRegistered := true, name := "Alice",
    myName := "Alice", expenses := [],
    people := [{ address := "0xC", name := "Carol", netBalance := "0.0" }],
    loadingExpenses := false, expenseLabel := "",
    participants := [{ address := "", amountPaid := .num 0, amountOwed := .num 0 }],
    showAddExpense := false }

/-- The session of `sessionOn` with the form filled in. -/
def sessionWithForm (c : Contract Unit) (label : String) (ps : List FormParticipant) :
    AppState Unit :=
  { sessionOn c with expenseLabel := label, participants := ps, showAddExpense := true }

/-- The session of a connected account that has not registered, with `name`
typed in the registration field. -/
def newcomerOn (c : Contract Unit) (name : String) : AppState Unit :=
  { sessionOn c with isRegistered := false, name := name, myName := "", people := [] }

/-! ## Properties of `loadExpenses` -/

theorem loadParticipant_fst {W : Type} (lib : Lib) (c : Contract W) (w : W) (i : Nat)
    (a : String) : (loadParticipant lib c w i a).1 = participantEntry lib c w i a := by
  unfold loadParticipant participantEntry
  cases c.getAmountPaid w i a <;> cases c.getAmountOwed w i a <;> rfl

theorem foldl_loadStep {W : Type} (lib : Lib) (c : Contract W) (w : W) (l : List Nat) :
    ∀ acc : List Expense × List Call,
      l.foldl (loadStep lib c w) acc =
        (acc.1 ++ l.filterMap (fun i => (loadExpenseAt lib c w i).1),
         acc.2 ++ (l.map (fun i => (loadExpenseAt lib c w i).2)).flatten) := by
  induction l with
  | nil => intro acc; simp
  | cons i l ih =>
    intro acc
    rw [List.foldl_cons, ih]
    unfold loadStep
    rcases h : loadExpenseAt lib c w i with ⟨o, cs⟩
    cases o <;> simp [h, List.filterMap_cons]

theorem loadLoop_eq {W : Type} (lib : Lib) (c : Contract W) (w : W) (n : Nat) :
    loadLoop lib c w n =
      ((List.range n).filterMap (fun i => (loadExpenseAt lib c w i).1),
       ((List.range n).map (fun i => (loadExpenseAt lib c w i).2)).flatten) := by
  unfold loadLoop
  rw [foldl_loadStep]
  simp

theorem toNumber_of_lt {b : Nat} (h : b < 2 ^ 53) : toNumber b = some b := by
  unfold toNumber
  rw [if_pos h]

theorem toNumber_of_ge {b : Nat} (h : ¬ b < 2 ^ 53) : toNumber b = none := by
  unfold toNumber
  rw [if_neg h]

theorem loadExpenseAt_none_iff {W : Type} (lib : Lib) (c : Contract W) (w : W) (i : Nat) :
    (loadExpenseAt lib c w i).1 = none ↔ skipsIndex c w i = true := by
  unfold loadExpenseAt skipsIndex
  cases h1 : c.getExpenseBasicInfo w i with
  | error e => simp
  | ok info =>
    cases h2 : c.getExpenseParticipants w i with
    | error e => simp
    | ok addrs =>
      by_cases hid : info.id < 2 ^ 53
      · by_cases hts : info.timestamp < 2 ^ 53
        · simp only [toNumber_of_lt hid, toNumber_of_lt hts]
          simp
          omega
        · simp only [toNumber_of_lt hid, toNumber_of_ge hts]
          simp
          omega
      · simp only [toNumber_of_ge hid]
        simp
        omega

theorem loadExpenseAt_some {W : Type} (lib : Lib) (c : Contract W) (w : W) (i : Nat)
    (info : BasicInfo) (addrs : List String)
    (h1 : c.getExpenseBasicInfo w i = .ok info)
    (h2 : c.getExpenseParticipants w i = .ok addrs)
    (hid : info.id < 2 ^ 53) (hts : info.timestamp < 2 ^ 53) :
    (loadExpenseAt lib c w i).1 =
      some { id := info.id, label := info.label,
             timestamp := lib.dateString (info.timestamp * 1000),
             participants := addrs.map (participantEntry lib c w i) } := by
  unfold loadExpenseAt
  simp only [h1, h2, toNumber_of_lt hid, toNumber_of_lt hts]
  have : (fun a => (loadParticipant lib c w i a).1) = participantEntry lib c w i :=
    funext (loadParticipant_fst lib c w i)
  simp [List.map_map, Function.comp_def, this]

theorem loadExpenses_expenses {W : Type} (lib : Lib) (c : Contract W) (w : W)
    (st : AppState W) (n : Nat) (hn : c.expenseCount w = .ok n) :
    (loadExpenses lib (some c) true w st).state.expenses =
      (List.range n).filterMap (fun i => (loadExpenseAt lib c w i).1) := by
  unfold loadExpenses
  simp [hn, loadLoop_eq]

theorem loadExpenseAt_fst_eq {W : Type} (lib : Lib) (c : Contract W) (w : W) (i : Nat) :
    (loadExpenseAt lib c w i).1 =
      if skipsIndex c w i = true then none else expenseEntry lib c w i := by
  cases h1 : c.getExpenseBasicInfo w i with
  | error e =>
    have hs : skipsIndex c w i = true := by simp [skipsIndex, h1]
    rw [if_pos hs]
    exact (loadExpenseAt_none_iff lib c w i).2 hs
  | ok info =>
    cases h2 : c.getExpenseParticipants w i with
    | error e =>
      have hs : skipsIndex c w i = true := by simp [skipsIndex, h1, h2]
      rw [if_pos hs]
      exact (loadExpenseAt_none_iff lib c w i).2 hs
    | ok addrs =>
      by_cases hs : skipsIndex c w i = true
      · rw [if_pos hs]
        exact (loadExpenseAt_none_iff lib c w i).2 hs
      · rw [if_neg hs]
        have hb : info.id < 2 ^ 53 ∧ info.timestamp < 2 ^ 53 := by
          simpa [skipsIndex, h1, h2] using hs
        rw [loadExpenseAt_some lib c w i info addrs h1 h2 hb.1 hb.2]
        simp [expenseEntry, h1, h2]

theorem expenseEntry_isSome_of_not_skipped {W : Type} (lib : Lib) (c : Contract W) (w : W)
    (i : Nat) (h : skipsIndex c w i = false) : (expenseEntry lib c w i).isSome = true := by
  unfold skipsIndex at h
  unfold expenseEntry
  cases h1 : c.getExpenseBasicInfo w i with
  | error e => simp [h1] at h
  | ok info =>
    cases h2 : c.getExpenseParticipants w i with
    | error e => simp [h1, h2] at h
    | ok addrs => simp

theorem filterMap_ite_none {α β : Type} (p : α → Bool) (f : α → Option β) (l : List α) :
    l.filterMap (fun a => if p a = true then none else f a) =
      (l.filter (fun a => !p a)).filterMap f := by
  induction l with
  | nil => rfl
  | cons a l ih =>
    by_cases hp : p a = true
    · simp [List.filterMap_cons, List.filter_cons, hp, ih]
    · simp [List.filterMap_cons, List.filter_cons, hp, ih]

theorem forall2_filterMap_of_isSome {α β : Type} (f : α → Option β) (l : List α)
    (h : ∀ a ∈ l, (f a).isSome = true) :
    List.Forall₂ (fun a b => f a = some b) l (l.filterMap f) := by
  induction l with
  | nil => exact List.Forall₂.nil
  | cons a l ih =>
    have ha := h a (List.mem_cons_self a l)
    obtain ⟨b, hb⟩ := Option.isSome_iff_exists.1 ha
    rw [List.filterMap_cons, hb]
    exact List.Forall₂.cons hb (ih (fun x hx => h x (List.mem_cons_of_mem a hx)))

theorem loadExpenses_expenses_filter {W : Type} (lib : Lib) (c : Contract W) (w : W)
    (st : AppState W) (n : Nat) (hn : c.expenseCount w = .ok n) :
    (loadExpenses lib (some c) true w st).state.expenses =
      ((List.range n).filter (fun i => !skipsIndex c w i)).filterMap (expenseEntry lib c w) := by
  rw [loadExpenses_expenses lib c w st n hn]
  have : (fun i => (loadExpenseAt lib c w i).1) =
      fun i => if skipsIndex c w i = true then none else expenseEntry lib c w i :=
    funext (loadExpenseAt_fst_eq lib c w)
  rw [this, filterMap_ite_none]

theorem loadExpenses_alerts {W : Type} (lib : Lib) (c : Contract W) (w : W)
    (st : AppState W) (n : Nat) (hn : c.expenseCount w = .ok n) :
    (loadExpenses lib (some c) true w st).alerts = [] := by
  unfold loadExpenses
  simp [hn]

/-- C3, amended: when the count query answers `n`, the pass completes without
an alert and the snapshot corresponds, position by position, to the ascending
list of the indices below `n` that are not skipped, each carrying the entry
described by the answers for that index alone; an index is skipped exactly when
a fetch of step (a) throws or the id or timestamp does not fit in 53 bits; with
no skipped index the snapshot has `n` entries. -/
theorem loadExpenses_snapshot_indices {W : Type} (lib : Lib) (c : Contract W) (w : W)
    (st : AppState W) (n : Nat) (hn : c.expenseCount w = .ok n) :
    List.Forall₂ (fun i e => expenseEntry lib c w i = some e)
        ((List.range n).filter (fun i => !skipsIndex c w i))
        (loadExpenses lib (some c) true w st).state.expenses
      ∧ (∀ i, skipsIndex c w i = true ↔
          (fetchFails c w i = true ∨ ∃ info, c.getExpenseBasicInfo w i = .ok info ∧
            (2 ^ 53 ≤ info.id ∨ 2 ^ 53 ≤ info.timestamp)))
      ∧ ((∀ i, i < n → skipsIndex c w i = false) →
          (loadExpenses lib (some c) true w st).state.expenses.length = n)
      ∧ (loadExpenses lib (some c) true w st).alerts = [] := by
  have hF : List.Forall₂ (fun i e => expenseEntry lib c w i = some e)
      ((List.range n).filter (fun i => !skipsIndex c w i))
      (loadExpenses lib (some c) true w st).state.expenses := by
    rw [loadExpenses_expenses_filter lib c w st n hn]
    apply forall2_filterMap_of_isSome
    intro i hi
    apply expenseEntry_isSome_of_not_skipped
    simpa using (List.mem_filter.1 hi).2
  refine ⟨hF, ?_, ?_, loadExpenses_alerts lib c w st n hn⟩
  · intro i
    unfold skipsIndex fetchFails
    cases h1 : c.getExpenseBasicInfo w i with
    | error e => simp
    | ok info =>
      cases h2 : c.getExpenseParticipants w i with
      | error e => simp
      | ok addrs => simp
  · intro hall
    rw [← hF.length_eq]
    have : (List.range n).filter (fun i => !skipsIndex c w i) = List.range n := by
      apply List.filter_eq_self.2
      intro i hi
      simp [hall i (List.mem_range.1 hi)]
    rw [this, List.length_range]

/-- C3, witness: on the flaky ledger the count is 3 and the snapshot
corresponds to the unskipped indices. -/
theorem loadExpenses_snapshot_indices_witness :
    List.Forall₂ (fun i e => expenseEntry refLib flakyLedger () i = some e)
        ((List.range 3).filter (fun i => !skipsIndex flakyLedger () i))
        (loadExpenses refLib (some flakyLedger) true () (sessionOn flakyLedger)).state.expenses
      ∧ (List.range 3).filter (fun i => !skipsIndex flakyLedger () i) = [0, 2] :=
  ⟨(loadExpenses_snapshot_indices refLib flakyLedger () (sessionOn flakyLedger) 3 rfl).1,
    by decide⟩

/-- C3, counterexample: on a ledger of two records where every fetch of basic
info and of participant addresses answers, the record with timestamp `2 ^ 53`
is left out and the snapshot has one entry, not two. -/
theorem loadExpenses_skips_oversized_timestamp :
    oversizedTimestampLedger.expenseCount () = .ok 2
      ∧ fetchFails oversizedTimestampLedger () 0 = false
      ∧ fetchFails oversizedTimestampLedger () 1 = false
      ∧ ((loadExpenses refLib (some oversizedTimestampLedger) true ()
            (sessionOn oversizedTimestampLedger)).state.expenses.map (fun e => e.id)) = [1] :=
  ⟨rfl, by decide, by decide, by decide⟩

theorem participantEntry_of_ok {W : Type} (lib : Lib) (c : Contract W) (w : W) (i : Nat)
    (a : String) (p o : Int) (hp : c.getAmountPaid w i a = .ok p)
    (ho : c.getAmountOwed w i a = .ok o) :
    participantEntry lib c w i a =
      { address := a, amountPaid := lib.formatEther p, amountOwed := lib.formatEther o } := by
  simp [participantEntry, hp, ho]

theorem participantEntry_of_error {W : Type} (lib : Lib) (c : Contract W) (w : W) (i : Nat)
    (a : String)
    (h : (∃ e, c.getAmountPaid w i a = .error e) ∨ (∃ e, c.getAmountOwed w i a = .error e)) :
    participantEntry lib c w i a = { address := a, amountPaid := "0", amountOwed := "0" } := by
  unfold participantEntry
  rcases h with ⟨e, he⟩ | ⟨e, he⟩
  · simp [he]
  · cases hp : c.getAmountPaid w i a <;> simp [he]

theorem participantEntry_address {W : Type} (lib : Lib) (c : Contract W) (w : W) (i : Nat)
    (a : String) : (participantEntry lib c w i a).address = a := by
  unfold participantEntry
  cases c.getAmountPaid w i a <;> cases c.getAmountOwed w i a <;> rfl

theorem mem_loadExpenses_of_some {W : Type} (lib : Lib) (c : Contract W) (w : W)
    (st : AppState W) (n i : Nat) (e : Expense) (hn : c.expenseCount w = .ok n) (hi : i < n)
    (he : (loadExpenseAt lib c w i).1 = some e) :
    e ∈ (loadExpenses lib (some c) true w st).state.expenses := by
  rw [loadExpenses_expenses lib c w st n hn]
  exact List.mem_filterMap.2 ⟨i, List.mem_range.2 hi, he⟩

/-- C2, amended: when the count query answers `n`, index `i < n` has its basic
info and its participant addresses fetched, and the id and the timestamp fit in
53 bits, the snapshot contains the expense of index `i` with one participant
entry per fetched address, in the same order; an address whose two amount
queries answer carries the `formatEther` rendering of both answers, an address
for which `getAmountPaid` or `getAmountOwed` throws carries `"0"` and `"0"`. -/
theorem loadExpenses_participant_isolation {W : Type} (lib : Lib) (c : Contract W) (w : W)
    (st : AppState W) (n i : Nat) (info : BasicInfo) (addrs : List String)
    (hn : c.expenseCount w = .ok n) (hi : i < n)
    (h1 : c.getExpenseBasicInfo w i = .ok info)
    (h2 : c.getExpenseParticipants w i = .ok addrs)
    (hid : info.id < 2 ^ 53) (hts : info.timestamp < 2 ^ 53) :
    ∃ e : Expense, e ∈ (loadExpenses lib (some c) true w st).state.expenses
      ∧ e.id = info.id ∧ e.label = info.label
      ∧ e.participants.length = addrs.length
      ∧ e.participants.map (fun q => q.address) = addrs
      ∧ ∀ (k : Nat) (a : String), addrs[k]? = some a →
          (∀ p o, c.getAmountPaid w i a = .ok p → c.getAmountOwed w i a = .ok o →
            e.participants[k]? =
              some (ParticipantData.mk a (lib.formatEther p) (lib.formatEther o)))
          ∧ ((∃ err, c.getAmountPaid w i a = .error err) ∨
              (∃ err, c.getAmountOwed w i a = .error err) →
            e.participants[k]? = some (ParticipantData.mk a "0" "0")) := by
  refine ⟨_, mem_loadExpenses_of_some lib c w st n i _ hn hi
    (loadExpenseAt_some lib c w i info addrs h1 h2 hid hts), rfl, rfl, ?_, ?_, ?_⟩
  · simp
  · simp [List.map_map, Function.comp_def, participantEntry_address]
  · intro k a hk
    refine ⟨?_, ?_⟩
    · intro p o hp ho
      simp [List.getElem?_map, hk, participantEntry_of_ok lib c w i a p o hp ho]
    · intro herr
      simp [List.getElem?_map, hk, participantEntry_of_error lib c w i a herr]

/-- C2, witness: record 0 of the flaky ledger, where the amount owed by the
second participant cannot be fetched. -/
theorem loadExpenses_participant_isolation_witness :
    ∃ e : Expense, e ∈ (loadExpenses refLib (some flakyLedger) true ()
          (sessionOn flakyLedger)).state.expenses
      ∧ e.id = 0 ∧ e.label = "Dinner"
      ∧ e.participants.length = ["0xA", "0xB"].length
      ∧ e.participants.map (fun q => q.address) = ["0xA", "0xB"]
      ∧ ∀ (k : Nat) (a : String), ["0xA", "0xB"][k]? = some a →
          (∀ p o, flakyLedger.getAmountPaid () 0 a = .ok p →
            flakyLedger.getAmountOwed () 0 a = .ok o →
            e.participants[k]? =
              some (ParticipantData.mk a (refLib.formatEther p) (refLib.formatEther o)))
          ∧ ((∃ err, flakyLedger.getAmountPaid () 0 a = .error err) ∨
              (∃ err, flakyLedger.getAmountOwed () 0 a = .error err) →
            e.participants[k]? = some (ParticipantData.mk a "0" "0")) :=
  loadExpenses_participant_isolation refLib flakyLedger () (sessionOn flakyLedger) 3 0
    { id := 0, label := "Dinner", timestamp := 1700000000 } ["0xA", "0xB"] rfl (by decide)
    rfl rfl (by decide) (by decide)

/-- C2, counterexample: the only record of the ledger has its basic info, its
participant addresses and every amount fetched, but its id is `2 ^ 53` and the
snapshot does not contain it. -/
theorem loadExpenses_drops_oversized_id :
    oversizedIdLedger.expenseCount () = .ok 1
      ∧ oversizedIdLedger.getExpenseBasicInfo () 0 =
          .ok { id := 9007199254740992, label := "Dinner", timestamp := 1700000000 }
      ∧ oversizedIdLedger.getExpenseParticipants () 0 = .ok ["0xA"]
      ∧ (loadExpenses refLib (some oversizedIdLedger) true ()
            (sessionOn oversizedIdLedger)).state.expenses = [] :=
  ⟨rfl, rfl, rfl, by decide⟩

theorem loadExpenseAt_some_id {W : Type} (lib : Lib) (c : Contract W) (w : W) (i : Nat)
    (e : Expense) (h : (loadExpenseAt lib c w i).1 = some e) :
    ∃ info, c.getExpenseBasicInfo w i = .ok info ∧ e.id = info.id := by
  rw [loadExpenseAt_fst_eq] at h
  by_cases hs : skipsIndex c w i = true
  · rw [if_pos hs] at h
    cases h
  · rw [if_neg hs] at h
    unfold expenseEntry at h
    cases h1 : c.getExpenseBasicInfo w i with
    | error err => simp [h1] at h
    | ok info =>
      cases h2 : c.getExpenseParticipants w i with
      | error err => simp [h1, h2] at h
      | ok addrs =>
        simp [h1, h2] at h
        exact ⟨info, rfl, by rw [← h]⟩

theorem loadExpenses_pairwise {W : Type} (lib : Lib) (c : Contract W) (w : W)
    (st : AppState W) (n : Nat) (hn : c.expenseCount w = .ok n)
    (hmono : RemoteIdsIncreasing c w n) :
    List.Pairwise (fun a b : Expense => a.id < b.id)
      (loadExpenses lib (some c) true w st).state.expenses := by
  rw [loadExpenses_expenses lib c w st n hn, List.pairwise_filterMap]
  refine List.Pairwise.imp_of_mem ?_ (List.pairwise_lt_range n)
  intro i j _ hj hij a ha b hb
  obtain ⟨ia, hia, ea⟩ := loadExpenseAt_some_id lib c w i a ha
  obtain ⟨ib, hib, eb⟩ := loadExpenseAt_some_id lib c w j b hb
  rw [ea, eb]
  exact hmono i j ia ib hij (List.mem_range.1 hj) hia hib

/-- C6, amended: when the count query answers `n` and the ids the contract
returns for the first `n` indices increase with the index, the ids of the
snapshot are strictly ascending: each entry has a smaller id than the next one,
and than every later one. -/
theorem loadExpenses_ids_ascending {W : Type} (lib : Lib) (c : Contract W) (w : W)
    (st : AppState W) (n : Nat) (hn : c.expenseCount w = .ok n)
    (hmono : RemoteIdsIncreasing c w n) :
    (∀ k a b, (loadExpenses lib (some c) true w st).state.expenses[k]? = some a →
        (loadExpenses lib (some c) true w st).state.expenses[k + 1]? = some b → a.id < b.id)
      ∧ List.Pairwise (fun a b : Expense => a.id < b.id)
          (loadExpenses lib (some c) true w st).state.expenses := by
  have hp := loadExpenses_pairwise lib c w st n hn hmono
  refine ⟨?_, hp⟩
  intro k a b ha hb
  obtain ⟨hk, rfl⟩ := List.getElem?_eq_some_iff.1 ha
  obtain ⟨hk1, rfl⟩ := List.getElem?_eq_some_iff.1 hb
  exact List.pairwise_iff_getElem.1 hp k (k + 1) hk hk1 (Nat.lt_succ_self k)

theorem flakyLedger_ids_increasing : RemoteIdsIncreasing flakyLedger () 3 := by
  intro i j a b hij hj ha hb
  have hi : i < 3 := by omega
  interval_cases j <;> interval_cases i <;> simp_all [flakyLedger]
  subst ha
  subst hb
  decide

/-- C6, counterexample: the contract answers the id 5 for index 0 and the id 3
for index 1; the snapshot keeps the enumeration order, its ids are 5 then 3,
and the first id is not smaller than the second. -/
theorem loadExpenses_keeps_enumeration_order :
    unorderedIdsLedger.expenseCount () = .ok 2
      ∧ unorderedIdsLedger.getExpenseBasicInfo () 0 =
          .ok { id := 5, label := "Dinner", timestamp := 1700000000 }
      ∧ unorderedIdsLedger.getExpenseBasicInfo () 1 =
          .ok { id := 3, label := "Taxi", timestamp := 1700000600 }
      ∧ ((loadExpenses refLib (some unorderedIdsLedger) true ()
            (sessionOn unorderedIdsLedger)).state.expenses.map (fun e => e.id)) = [5, 3]
      ∧ ¬ List.Pairwise (fun a b : Expense => a.id < b.id)
          (loadExpenses refLib (some unorderedIdsLedger) true ()
            (sessionOn unorderedIdsLedger)).state.expenses :=
  ⟨rfl, rfl, rfl, by decide, by decide⟩

/-- C6, witness: the flaky ledger returns the ids 0 and 2 for the indices 0
and 2. -/
theorem loadExpenses_ids_ascending_witness :
    RemoteIdsIncreasing flakyLedger () 3
      ∧ List.Pairwise (fun a b : Expense => a.id < b.id)
          (loadExpenses refLib (some flakyLedger) true () (sessionOn flakyLedger)).state.expenses :=
  ⟨flakyLedger_ids_increasing,
    (loadExpenses_ids_ascending refLib flakyLedger () (sessionOn flakyLedger) 3 rfl
      flakyLedger_ids_increasing).2⟩

/-- C4: when the count query throws, the pass is abandoned as a whole: the
`expenses` state after the call is the one before it (not an empty list), no
other cell than `loadingExpenses` is written, the only contract method invoked
is `expenseCount`, and the failure is reported by an alert. -/
theorem loadExpenses_count_failure {W : Type} (lib : Lib) (c : Contract W) (w : W)
    (st : AppState W) (err : String) (h : c.expenseCount w = .error err) :
    (loadExpenses lib (some c) true w st).state.expenses = st.expenses
      ∧ (loadExpenses lib (some c) true w st).state = { st with loadingExpenses := false }
      ∧ (loadExpenses lib (some c) true w st).calls = [Call.expenseCount]
      ∧ (loadExpenses lib (some c) true w st).alerts =
          ["Could not load expenses. Check console."] := by
  unfold loadExpenses
  simp [h]

/-- C4, witness: a session holding one expense on a ledger whose count query
throws keeps that expense. -/
theorem loadExpenses_count_failure_witness :
    (loadExpenses refLib (some countFailsLedger) true ()
        { sessionOn countFailsLedger with
          expenses := [{ id := 0, label := "Dinner", timestamp := "", participants := [] }] }
      ).state.expenses = [{ id := 0, label := "Dinner", timestamp := "", participants := [] }] :=
  (loadExpenses_count_failure refLib countFailsLedger ()
    { sessionOn countFailsLedger with
      expenses := [{ id := 0, label := "Dinner", timestamp := "", participants := [] }] }
    "timeout" rfl).1

/-! ## Properties of `loadPeople` -/

theorem promiseAll_map_ok {α β : Type} (g : α → Except String β) (row : α → β) (l : List α)
    (h : ∀ a ∈ l, g a = .ok (row a)) : promiseAll (l.map g) = some (l.map row) := by
  induction l with
  | nil => rfl
  | cons a l ih =>
    have ha := h a (List.mem_cons_self a l)
    have hl := ih (fun x hx => h x (List.mem_cons_of_mem a hx))
    simp [promiseAll, ha, hl]

theorem promiseAll_none_of_error {α : Type} (l : List (Except String α))
    (h : ∃ e, Except.error e ∈ l) : promiseAll l = none := by
  induction l with
  | nil => obtain ⟨e, he⟩ := h; cases he
  | cons x l ih =>
    cases x with
    | error e => rfl
    | ok a =>
      obtain ⟨e, he⟩ := h
      have : Except.error e ∈ l := by
        rcases List.mem_cons.1 he with h1 | h1
        · cases h1
        · exact h1
      simp [promiseAll, ih ⟨e, this⟩]

/-- One rejected promise makes `loadPeople` leave the state as it was. -/
theorem loadPeople_unchanged_of_failure {W : Type} (lib : Lib) (c : Contract W) (w : W)
    (st : AppState W) (addrs : List String) (a : String) (e : String)
    (h0 : c.getAllRegisteredPeople w = .ok addrs) (ha : a ∈ addrs)
    (h : (loadPerson lib c w a).1 = .error e) :
    (loadPeople lib (some c) w st).state = st := by
  unfold loadPeople
  have : promiseAll ((addrs.map (loadPerson lib c w)).map Prod.fst) = none := by
    apply promiseAll_none_of_error
    refine ⟨e, ?_⟩
    rw [← h]
    exact List.mem_map.2 ⟨_, List.mem_map.2 ⟨a, ha, rfl⟩, rfl⟩
  simp only [h0, this]

/-- C5, the component at the failing input: two addresses are registered, the
record of the first is fetched and the record of the second is not; the
`people` state keeps the row it held before the call and the row of the first
address is not in it. -/
theorem loadPeople_keeps_old_people_on_person_failure :
    personFailsLedger.getAllRegisteredPeople () = .ok ["0xA", "0xB"]
      ∧ personFailsLedger.getPerson () "0xA" = .ok { name := "Alice", walletAddress := "0xA" }
      ∧ personFailsLedger.getNetBalance () "0xA" = .ok 5000000000000000000
      ∧ personFailsLedger.getPerson () "0xB" = .error "timeout"
      ∧ (loadPeople refLib (some personFailsLedger) () (sessionOn personFailsLedger)).state.people
          = [{ address := "0xC", name := "Carol", netBalance := "0.0" }]
      ∧ (sessionOn personFailsLedger).people
          = [{ address := "0xC", name := "Carol", netBalance := "0.0" }] :=
  ⟨rfl, rfl, rfl, rfl, by decide, rfl⟩

theorem loadPerson_calls_of_ok {W : Type} (lib : Lib) (c : Contract W) (w : W)
    (a : String) (person : PersonRecord) (balance : Int)
    (hp : c.getPerson w a = .ok person) (hb : c.getNetBalance w a = .ok balance) :
    loadPerson lib c w a =
      (.ok (PersonRow.mk a person.name (lib.formatEther balance)),
        [Call.getPerson a, Call.getNetBalance a]) := by
  simp [loadPerson, hp, hb]

theorem count_getNetBalance_calls (a : String) (l : List String) :
    ((l.map (fun b => [Call.getPerson b, Call.getNetBalance b])).flatten).count
      (Call.getNetBalance a) = l.count a := by
  induction l with
  | nil => rfl
  | cons b l ih =>
    rw [List.map_cons, List.flatten_cons, List.count_append, ih, List.count_cons]
    by_cases hba : b = a
    · subst hba
      simp [List.count_cons]
      omega
    · have hne : ¬ (Call.getNetBalance b = Call.getNetBalance a) := by
        intro h
        injection h with h1
        exact hba h1
      simp [List.count_cons, hba, hne]

/-- C7, amended: when the address list and every per-person query answer, the
balance the `people` state holds for each registered address is the
`formatEther` rendering of the answer of the contract's `getNetBalance` query
for that address; the pass invokes `getAllRegisteredPeople` and then, for each
entry of the address list, `getPerson` once and `getNetBalance` once, so that
`getNetBalance` is invoked on an address exactly as many times as the address
is listed; the `expenses` state is neither read nor written. -/
theorem loadPeople_balances_from_contract {W : Type} (lib : Lib) (c : Contract W) (w : W)
    (st : AppState W) (addrs : List String) (persons : String → PersonRecord)
    (balances : String → Int) (h0 : c.getAllRegisteredPeople w = .ok addrs)
    (h : ∀ a ∈ addrs, c.getPerson w a = .ok (persons a) ∧
      c.getNetBalance w a = .ok (balances a)) :
    (loadPeople lib (some c) w st).state.people =
        addrs.map (fun a => PersonRow.mk a (persons a).name (lib.formatEther (balances a)))
      ∧ (∀ a ∈ addrs, Call.getNetBalance a ∈ (loadPeople lib (some c) w st).calls)
      ∧ (loadPeople lib (some c) w st).state.expenses = st.expenses
      ∧ (loadPeople lib (some c) w st).calls =
          Call.getAllRegisteredPeople ::
            (addrs.map (fun a => [Call.getPerson a, Call.getNetBalance a])).flatten
      ∧ (∀ a, (loadPeople lib (some c) w st).calls.count (Call.getNetBalance a) =
          addrs.count a) := by
  have hrow : ∀ a ∈ addrs, loadPerson lib c w a =
      (.ok (PersonRow.mk a (persons a).name (lib.formatEther (balances a))),
        [Call.getPerson a, Call.getNetBalance a]) :=
    fun a ha => loadPerson_calls_of_ok lib c w a (persons a) (balances a) (h a ha).1 (h a ha).2
  have hall : promiseAll ((addrs.map (loadPerson lib c w)).map Prod.fst) =
      some (addrs.map (fun a => PersonRow.mk a (persons a).name
        (lib.formatEther (balances a)))) := by
    rw [List.map_map]
    apply promiseAll_map_ok
    intro a ha
    simp [hrow a ha]
  have hcalls : (addrs.map (loadPerson lib c w)).map Prod.snd =
      addrs.map (fun a => [Call.getPerson a, Call.getNetBalance a]) := by
    rw [List.map_map]
    apply List.map_congr_left
    intro a ha
    simp [hrow a ha]
  have hrun : (loadPeople lib (some c) w st).calls =
      Call.getAllRegisteredPeople ::
        (addrs.map (fun a => [Call.getPerson a, Call.getNetBalance a])).flatten := by
    unfold loadPeople
    simp only [h0, hall, hcalls]
  have hpeople : (loadPeople lib (some c) w st).state.people =
      addrs.map (fun a => PersonRow.mk a (persons a).name (lib.formatEther (balances a))) := by
    unfold loadPeople
    simp only [h0, hall]
  have hexp : (loadPeople lib (some c) w st).state.expenses = st.expenses := by
    unfold loadPeople
    simp only [h0, hall]
  refine ⟨hpeople, ?_, hexp, hrun, ?_⟩
  · intro a ha
    rw [hrun]
    apply List.mem_cons_of_mem
    apply List.mem_flatten.2
    exact ⟨[Call.getPerson a, Call.getNetBalance a], List.mem_map.2 ⟨a, ha, rfl⟩, by simp⟩
  · intro a
    rw [hrun, List.count_cons, count_getNetBalance_calls]
    simp

/-- C7, witness: the two registered addresses of the flaky ledger, each
queried once for its balance. -/
theorem loadPeople_balances_from_contract_witness :
    (loadPeople refLib (some flakyLedger) () (sessionOn flakyLedger)).state.people =
        [{ address := "0xA", name := "Alice", netBalance := "5.0" },
         { address := "0xB", name := "Bob", netBalance := "-5.0" }]
      ∧ (loadPeople refLib (some flakyLedger) () (sessionOn flakyLedger)).calls.count
          (Call.getNetBalance "0xB") = 1 := by
  have h := loadPeople_balances_from_contract refLib flakyLedger () (sessionOn flakyLedger)
    ["0xA", "0xB"]
    (fun a => if a = "0xA" then { name := "Alice", walletAddress := "0xA" }
      else { name := "Bob", walletAddress := "0xB" })
    (fun a => if a = "0xA" then 5000000000000000000 else -5000000000000000000) rfl
    (by
      intro a ha
      simp only [List.mem_cons, List.mem_singleton, List.not_mem_nil, or_false] at ha
      rcases ha with rfl | rfl <;> exact ⟨rfl, rfl⟩)
  refine ⟨?_, ?_⟩
  · rw [h.1]
    decide
  · rw [h.2.2.2.2 "0xB"]
    decide

/-- C7, counterexample: after a pass over the flaky ledger the balance held for
B is the contract's answer −5, read through a `getNetBalance` call, while the
paid-minus-owed sum over the entries of B in the snapshot is 0. -/
theorem held_balance_differs_from_snapshot_sum :
    ({ address := "0xB", name := "Bob", netBalance := "-5.0" } : PersonRow) ∈
        (loadPeople refLib (some flakyLedger) () (sessionOn flakyLedger)).state.people
      ∧ baseUnits refLib "-5.0" = -5000000000000000000
      ∧ computeNetBalance refLib
          (loadExpenses refLib (some flakyLedger) true ()
            (sessionOn flakyLedger)).state.expenses "0xB" = 0
      ∧ Call.getNetBalance "0xB" ∈
          (loadPeople refLib (some flakyLedger) () (sessionOn flakyLedger)).calls := by
  refine ⟨by decide, by decide, by decide, by decide⟩

/-! ## The loaders invoke no mutation and keep the registration cells -/

theorem loadParticipant_calls {W : Type} (lib : Lib) (c : Contract W) (w : W) (i : Nat)
    (a : String) : ∀ x ∈ (loadParticipant lib c w i a).2, x.isMutation = false := by
  intro x hx
  unfold loadParticipant at hx
  cases hp : c.getAmountPaid w i a with
  | error e =>
    simp [hp] at hx
    subst hx
    rfl
  | ok p =>
    cases ho : c.getAmountOwed w i a with
    | error e =>
      simp [hp, ho] at hx
      rcases hx with rfl | rfl <;> rfl
    | ok o =>
      simp [hp, ho] at hx
      rcases hx with rfl | rfl <;> rfl

theorem participants_calls {W : Type} (lib : Lib) (c : Contract W) (w : W) (i : Nat)
    (addrs : List String) :
    ∀ x ∈ ((addrs.map (loadParticipant lib c w i)).map Prod.snd).flatten,
      x.isMutation = false := by
  intro x hx
  obtain ⟨l, hl, hxl⟩ := List.mem_flatten.1 hx
  obtain ⟨r, hr, rfl⟩ := List.mem_map.1 hl
  obtain ⟨a, _, rfl⟩ := List.mem_map.1 hr
  exact loadParticipant_calls lib c w i a x hxl

theorem loadExpenseAt_calls {W : Type} (lib : Lib) (c : Contract W) (w : W) (i : Nat) :
    ∀ x ∈ (loadExpenseAt lib c w i).2, x.isMutation = false := by
  intro x hx
  unfold loadExpenseAt at hx
  cases h1 : c.getExpenseBasicInfo w i with
  | error e =>
    simp [h1] at hx
    subst hx
    rfl
  | ok info =>
    cases h2 : c.getExpenseParticipants w i with
    | error e =>
      simp [h1, h2] at hx
      rcases hx with rfl | rfl <;> rfl
    | ok addrs =>
      have key : x ∈ [Call.getExpenseBasicInfo i, Call.getExpenseParticipants i] ++
          ((addrs.map (loadParticipant lib c w i)).map Prod.snd).flatten := by
        simp only [h1, h2] at hx
        cases hid : toNumber info.id with
        | none => simpa [hid] using hx
        | some id =>
          cases hts : toNumber info.timestamp with
          | none => simpa [hid, hts] using hx
          | some ts => simpa [hid, hts] using hx
      rcases List.mem_append.1 key with hk | hk
      · simp at hk
        rcases hk with rfl | rfl <;> rfl
      · exact participants_calls lib c w i addrs x hk

theorem loadExpenses_calls {W : Type} (lib : Lib) (contract : Option (Contract W))
    (isRegistered : Bool) (w : W) (st : AppState W) :
    ∀ x ∈ (loadExpenses lib contract isRegistered w st).calls, x.isMutation = false := by
  intro x hx
  unfold loadExpenses at hx
  cases contract with
  | none => simp at hx
  | some c =>
    cases isRegistered with
    | false => simp at hx
    | true =>
      cases hn : c.expenseCount w with
      | error e =>
        simp [hn] at hx
        subst hx
        rfl
      | ok n =>
        simp only [hn, loadLoop_eq] at hx
        simp only [Bool.not_true, Bool.false_eq_true, if_false, List.mem_cons] at hx
        rcases hx with rfl | hx
        · rfl
        · obtain ⟨l, hl, hxl⟩ := List.mem_flatten.1 hx
          obtain ⟨i, _, rfl⟩ := List.mem_map.1 hl
          exact loadExpenseAt_calls lib c w i x hxl

theorem loadPerson_calls {W : Type} (lib : Lib) (c : Contract W) (w : W) (a : String) :
    ∀ x ∈ (loadPerson lib c w a).2, x.isMutation = false := by
  intro x hx
  unfold loadPerson at hx
  cases hp : c.getPerson w a with
  | error e =>
    simp [hp] at hx
    subst hx
    rfl
  | ok p =>
    cases hb : c.getNetBalance w a with
    | error e =>
      simp [hp, hb] at hx
      rcases hx with rfl | rfl <;> rfl
    | ok b =>
      simp [hp, hb] at hx
      rcases hx with rfl | rfl <;> rfl

theorem loadPeople_calls {W : Type} (lib : Lib) (contract : Option (Contract W)) (w : W)
    (st : AppState W) :
    ∀ x ∈ (loadPeople lib contract w st).calls, x.isMutation = false := by
  intro x hx
  unfold loadPeople at hx
  cases contract with
  | none => simp at hx
  | some c =>
    cases h0 : c.getAllRegisteredPeople w with
    | error e =>
      simp [h0] at hx
      subst hx
      rfl
    | ok addrs =>
      have key : x ∈ Call.getAllRegisteredPeople ::
          ((addrs.map (loadPerson lib c w)).map Prod.snd).flatten := by
        simp only [h0] at hx
        cases hall : promiseAll ((addrs.map (loadPerson lib c w)).map Prod.fst) with
        | none =>
          simp only [hall] at hx
          exact hx
        | some rows =>
          simp only [hall] at hx
          exact hx
      rcases List.mem_cons.1 key with rfl | hk
      · rfl
      · obtain ⟨l, hl, hxl⟩ := List.mem_flatten.1 hk
        obtain ⟨r, hr, rfl⟩ := List.mem_map.1 hl
        obtain ⟨a, _, rfl⟩ := List.mem_map.1 hr
        exact loadPerson_calls lib c w a x hxl

theorem loadMyName_calls {W : Type} (contract : Option (Contract W)) (account : String)
    (w : W) (st : AppState W) :
    ∀ x ∈ (loadMyName contract account w st).calls, x.isMutation = false := by
  intro x hx
  unfold loadMyName at hx
  cases contract with
  | none => simp at hx
  | some c =>
    by_cases ha : account = ""
    · simp [ha] at hx
    · cases hm : c.getMyName w with
      | error e =>
        simp [ha, hm] at hx
        subst hx
        rfl
      | ok name =>
        simp [ha, hm] at hx
        subst hx
        rfl

theorem filter_isMutation_eq_nil (l : List Call) (h : ∀ x ∈ l, x.isMutation = false) :
    l.filter Call.isMutation = [] := by
  apply List.filter_eq_nil_iff.2
  intro x hx
  simp [h x hx]

theorem loadExpenses_registration {W : Type} (lib : Lib) (contract : Option (Contract W))
    (isRegistered : Bool) (w : W) (st : AppState W) :
    (loadExpenses lib contract isRegistered w st).state.isRegistered = st.isRegistered
      ∧ (loadExpenses lib contract isRegistered w st).state.name = st.name := by
  unfold loadExpenses
  repeat' split
  all_goals exact ⟨rfl, rfl⟩

theorem loadPeople_registration {W : Type} (lib : Lib) (contract : Option (Contract W))
    (w : W) (st : AppState W) :
    (loadPeople lib contract w st).state.isRegistered = st.isRegistered
      ∧ (loadPeople lib contract w st).state.name = st.name := by
  cases contract with
  | none => exact ⟨rfl, rfl⟩
  | some c =>
    simp only [loadPeople]
    split
    · exact ⟨rfl, rfl⟩
    · split <;> exact ⟨rfl, rfl⟩

theorem loadMyName_registration {W : Type} (contract : Option (Contract W))
    (account : String) (w : W) (st : AppState W) :
    (loadMyName contract account w st).state.isRegistered = st.isRegistered
      ∧ (loadMyName contract account w st).state.name = st.name := by
  unfold loadMyName
  repeat' split
  all_goals exact ⟨rfl, rfl⟩

/-! ## Properties of `addExpense` -/

theorem parseAmounts_forall2 (lib : Lib) (f : FormParticipant → FormAmount) :
    ∀ (l : List FormParticipant) (vs : List Int), parseAmounts lib f l = .ok vs →
      List.Forall₂ (fun p v => lib.parseEther (f p).toStr = .ok v) l vs := by
  intro l
  induction l with
  | nil =>
    intro vs h
    simp [parseAmounts] at h
    subst h
    exact List.Forall₂.nil
  | cons p l ih =>
    intro vs h
    unfold parseAmounts at h
    cases hp : lib.parseEther (f p).toStr with
    | error e => simp [hp] at h
    | ok v =>
      cases hl : parseAmounts lib f l with
      | error e => simp [hp, hl] at h
      | ok ws =>
        simp [hp, hl] at h
        subst h
        exact List.Forall₂.cons hp (ih ws hl)

theorem parseAmounts_ok_of_forall (lib : Lib) (f : FormParticipant → FormAmount) :
    ∀ l : List FormParticipant, (∀ p ∈ l, ∃ v, lib.parseEther (f p).toStr = .ok v) →
      ∃ vs, parseAmounts lib f l = .ok vs := by
  intro l
  induction l with
  | nil => intro _; exact ⟨[], rfl⟩
  | cons p l ih =>
    intro h
    obtain ⟨v, hv⟩ := h p (List.mem_cons_self p l)
    obtain ⟨vs, hvs⟩ := ih (fun q hq => h q (List.mem_cons_of_mem p hq))
    exact ⟨v :: vs, by simp [parseAmounts, hv, hvs]⟩

theorem parseAmounts_error_of_exists (lib : Lib) (f : FormParticipant → FormAmount) :
    ∀ l : List FormParticipant, (∃ p ∈ l, ∃ e, lib.parseEther (f p).toStr = .error e) →
      ∃ e, parseAmounts lib f l = .error e := by
  intro l
  induction l with
  | nil => intro h; obtain ⟨p, hp, _⟩ := h; cases hp
  | cons q l ih =>
    intro h
    unfold parseAmounts
    cases hq : lib.parseEther (f q).toStr with
    | error e => exact ⟨e, rfl⟩
    | ok v =>
      obtain ⟨p, hp, e, he⟩ := h
      have hpl : p ∈ l := by
        rcases List.mem_cons.1 hp with rfl | hpl
        · rw [hq] at he; cases he
        · exact hpl
      obtain ⟨e2, he2⟩ := ih ⟨p, hpl, e, he⟩
      exact ⟨e2, by simp [he2]⟩

/-- C1: a submission whose label is empty after trimming, or whose participant
list is empty, or with an entry that has an empty address or a negative amount
paid or owed, or with an amount that `parseEther` rejects, is turned down
locally: no contract method is invoked, the React state (form label,
participants, form visibility, expenses, people) and the ledger are as before,
and an alert is raised. -/
theorem addExpense_rejects_locally {W : Type} (lib : Lib) (w : W) (s : AppState W)
    (h : jsTrim s.expenseLabel = "" ∨ s.participants = [] ∨
      (∃ p ∈ s.participants, p.address = "" ∨ p.amountPaid.ltZero lib = true ∨
        p.amountOwed.ltZero lib = true) ∨
      (∃ p ∈ s.participants, (∃ e, lib.parseEther p.amountPaid.toStr = .error e) ∨
        (∃ e, lib.parseEther p.amountOwed.toStr = .error e))) :
    (addExpense lib w s).calls = [] ∧ (addExpense lib w s).state = s
      ∧ (addExpense lib w s).world = w ∧ (addExpense lib w s).alerts ≠ [] := by
  unfold addExpense
  by_cases hl : jsTrim s.expenseLabel = ""
  · simp [hl]
  · by_cases hn : s.participants.length = 0
    · simp [hl, hn]
    · by_cases hv : s.participants.any (participantInvalid lib) = true
      · simp [hl, hn, hv]
      · simp only [hl, hn, hv, if_false]
        have hconv : (∃ e, parseAmounts lib (fun p => p.amountPaid) s.participants = .error e) ∨
            (∃ e, parseAmounts lib (fun p => p.amountOwed) s.participants = .error e) := by
          rcases h with h | h | h | h
          · exact absurd h hl
          · exact absurd (by simp [h]) hn
          · exfalso
            apply hv
            obtain ⟨p, hp, hbad⟩ := h
            apply List.any_eq_true.2
            refine ⟨p, hp, ?_⟩
            unfold participantInvalid
            rcases hbad with hb | hb | hb <;> simp [hb]
          · obtain ⟨p, hp, hbad⟩ := h
            rcases hbad with ⟨e, he⟩ | ⟨e, he⟩
            · exact Or.inl (parseAmounts_error_of_exists lib (fun p => p.amountPaid) _
                ⟨p, hp, e, he⟩)
            · exact Or.inr (parseAmounts_error_of_exists lib (fun p => p.amountOwed) _
                ⟨p, hp, e, he⟩)
        cases hpaid : parseAmounts lib (fun p => p.amountPaid) s.participants with
        | error e => simp
        | ok paid =>
          rcases hconv with ⟨e, he⟩ | ⟨e, he⟩
          · rw [hpaid] at he; cases he
          · simp [he]

/-- C1, witness: a label of blanks is turned down although the participant
entry is well formed. -/
theorem addExpense_rejects_locally_witness :
    (addExpense refLib ()
        (sessionWithForm flakyLedger "  "
          [{ address := "0xA", amountPaid := .text "10.0", amountOwed := .text "5" }])).calls = []
      ∧ (addExpense refLib ()
        (sessionWithForm flakyLedger "Dinner"
          [{ address := "0xA", amountPaid := .text "ten", amountOwed := .text "5" }])).calls = [] :=
  ⟨(addExpense_rejects_locally refLib ()
      (sessionWithForm flakyLedger "  "
        [{ address := "0xA", amountPaid := .text "10.0", amountOwed := .text "5" }])
      (Or.inl (by decide))).1,
   (addExpense_rejects_locally refLib ()
      (sessionWithForm flakyLedger "Dinner"
        [{ address := "0xA", amountPaid := .text "ten", amountOwed := .text "5" }])
      (Or.inr (Or.inr (Or.inr ⟨_, List.mem_singleton.2 rfl,
        Or.inl ⟨"invalid decimal value", rfl⟩⟩)))).1⟩

theorem any_participantInvalid_false (lib : Lib) (l : List FormParticipant)
    (h : ∀ p ∈ l, p.address ≠ "" ∧ p.amountPaid.ltZero lib = false ∧
      p.amountOwed.ltZero lib = false) :
    ¬ (l.any (participantInvalid lib) = true) := by
  intro hany
  obtain ⟨p, hp, hbad⟩ := List.any_eq_true.1 hany
  obtain ⟨h1, h2, h3⟩ := h p hp
  simp [participantInvalid, h1, h2, h3] at hbad

/-- C8, amended: a submission that passes validation and amount conversion
invokes the `addExpense` mutation exactly once and no other mutation; its three
array arguments have the length of the participant list, and position `i` holds
the address of entry `i` with leading and trailing white space trimmed, the
amount paid of entry `i` converted by `parseEther` and the amount owed of entry
`i` converted by `parseEther`. Equal addresses stay at their positions. -/
theorem addExpense_submits_once {W : Type} (lib : Lib) (c : Contract W) (w : W)
    (s : AppState W) (hc : s.contract = some c)
    (hlabel : jsTrim s.expenseLabel ≠ "") (hne : s.participants ≠ [])
    (hvalid : ∀ p ∈ s.participants, p.address ≠ "" ∧ p.amountPaid.ltZero lib = false ∧
      p.amountOwed.ltZero lib = false)
    (hconv : ∀ p ∈ s.participants, (∃ v, lib.parseEther p.amountPaid.toStr = .ok v) ∧
      (∃ v, lib.parseEther p.amountOwed.toStr = .ok v)) :
    ∃ paid owed : List Int,
      (addExpense lib w s).calls.filter Call.isMutation =
          [Call.addExpense s.expenseLabel (s.participants.map (fun p => jsTrim p.address))
            paid owed]
        ∧ List.Forall₂ (fun p v => lib.parseEther p.amountPaid.toStr = .ok v) s.participants paid
        ∧ List.Forall₂ (fun p v => lib.parseEther p.amountOwed.toStr = .ok v) s.participants owed
        ∧ (s.participants.map (fun p => jsTrim p.address)).length = s.participants.length
        ∧ paid.length = s.participants.length ∧ owed.length = s.participants.length := by
  obtain ⟨paid, hpaid⟩ := parseAmounts_ok_of_forall lib (fun p => p.amountPaid) s.participants
    (fun p hp => (hconv p hp).1)
  obtain ⟨owed, howed⟩ := parseAmounts_ok_of_forall lib (fun p => p.amountOwed) s.participants
    (fun p hp => (hconv p hp).2)
  have hF1 := parseAmounts_forall2 lib (fun p => p.amountPaid) s.participants paid hpaid
  have hF2 := parseAmounts_forall2 lib (fun p => p.amountOwed) s.participants owed howed
  refine ⟨paid, owed, ?_, hF1, hF2, by simp, hF1.length_eq.symm, hF2.length_eq.symm⟩
  have hn : ¬ s.participants.length = 0 := by
    intro h0
    exact hne (List.length_eq_zero.1 h0)
  have hv := any_participantInvalid_false lib s.participants hvalid
  unfold addExpense
  simp only [hlabel, hn, hv, if_false, hpaid, howed, hc]
  rcases hout : c.addExpense w s.expenseLabel (s.participants.map (fun p => jsTrim p.address))
    paid owed with ⟨o, w1⟩
  cases o with
  | submitFailed m => simp [hout, Call.isMutation]
  | waitFailed m => simp [hout, Call.isMutation]
  | confirmed =>
    simp only [hout, Bool.false_eq_true, if_false, List.filter_cons, Call.isMutation, if_true,
      List.filter_append]
    rw [filter_isMutation_eq_nil _ (loadExpenses_calls lib _ _ _ _),
      filter_isMutation_eq_nil _ (loadPeople_calls lib _ _ _)]
    rfl

/-- C8, witness: the two-participant dinner of the submission scenario, with
the same address entered twice. -/
theorem addExpense_submits_once_witness :
    ∃ paid owed : List Int,
      (addExpense refLib ()
          (sessionWithForm flakyLedger "Dinner"
            [{ address := "0xA", amountPaid := .text "10.0", amountOwed := .text "5.0" },
             { address := "0xA", amountPaid := .text "0", amountOwed := .text "5.0" }])
        ).calls.filter Call.isMutation = [Call.addExpense "Dinner" ["0xA", "0xA"] paid owed]
      ∧ paid.length = 2 ∧ owed.length = 2 := by
  obtain ⟨paid, owed, hcall, _, _, _, hp, ho⟩ := addExpense_submits_once refLib flakyLedger ()
    (sessionWithForm flakyLedger "Dinner"
      [{ address := "0xA", amountPaid := .text "10.0", amountOwed := .text "5.0" },
       { address := "0xA", amountPaid := .text "0", amountOwed := .text "5.0" }])
    rfl (by decide) (by decide) (by decide)
    (by
      intro p hp
      simp only [sessionWithForm, List.mem_cons, List.mem_singleton, List.not_mem_nil,
        or_false] at hp
      rcases hp with rfl | rfl
      · exact ⟨⟨_, rfl⟩, ⟨_, rfl⟩⟩
      · exact ⟨⟨_, rfl⟩, ⟨_, rfl⟩⟩)
  exact ⟨paid, owed, hcall, hp, ho⟩

/-- C8, counterexample: an entry whose address carries a leading blank passes
validation and conversion, and the mutation receives the address without the
blank. -/
theorem addExpense_trims_addresses :
    ((sessionWithForm flakyLedger "Dinner"
        [{ address := " 0xA", amountPaid := .text "10.0", amountOwed := .text "5" }]
      ).participants.map (fun p => p.address)) = [" 0xA"]
      ∧ (addExpense refLib ()
          (sessionWithForm flakyLedger "Dinner"
            [{ address := " 0xA", amountPaid := .text "10.0", amountOwed := .text "5" }])
        ).calls.filter Call.isMutation =
          [Call.addExpense "Dinner" ["0xA"] [10000000000000000000] [5000000000000000000]] :=
  ⟨rfl, by decide⟩

/-! ## Properties of `registerPerson` and `checkRegistration` -/

theorem loaders_registration {W : Type} (lib : Lib) (contract : Option (Contract W))
    (isRegistered : Bool) (account : String) (w : W) (st : AppState W) :
    (loadMyName contract account
        (loadExpenses lib contract isRegistered (loadPeople lib contract w st).world
          (loadPeople lib contract w st).state).world
        (loadExpenses lib contract isRegistered (loadPeople lib contract w st).world
          (loadPeople lib contract w st).state).state).state.isRegistered = st.isRegistered := by
  rw [(loadMyName_registration _ _ _ _).1, (loadExpenses_registration _ _ _ _ _).1,
    (loadPeople_registration _ _ _ _).1]

/-- C9: with a contract instance, `registerPerson` invokes nothing and leaves
the state as it was when the name is empty after trimming; otherwise it
invokes the `registerPerson` mutation exactly once, with the trimmed name; a
confirmed transaction sets `isRegistered`; when the call or its confirmation
throws, the state is the one before the call (so `isRegistered` is set only
after a confirmation), the failure is reported by an alert carrying its
message and the mutation is the only contract method invoked. -/
theorem registerPerson_outcomes {W : Type} (lib : Lib) (c : Contract W) (w : W)
    (s : AppState W) (hc : s.contract = some c) :
    (jsTrim s.name = "" →
        (registerPerson lib w s).calls = [] ∧ (registerPerson lib w s).state = s
          ∧ (registerPerson lib w s).world = w)
      ∧ (jsTrim s.name ≠ "" →
        (registerPerson lib w s).calls.filter Call.isMutation =
            [Call.registerPerson (jsTrim s.name)]
          ∧ ((c.registerPerson w (jsTrim s.name)).1 = .confirmed →
              (registerPerson lib w s).state.isRegistered = true)
          ∧ ((c.registerPerson w (jsTrim s.name)).1 ≠ .confirmed →
              (registerPerson lib w s).state = s
                ∧ (registerPerson lib w s).calls = [Call.registerPerson (jsTrim s.name)]
                ∧ ∃ m, (registerPerson lib w s).alerts = ["Registration failed: " ++ m])) := by
  refine ⟨?_, ?_⟩
  · intro h
    unfold registerPerson
    simp [h]
  · intro h
    unfold registerPerson
    simp only [h, if_false, hc]
    rcases hout : c.registerPerson w (jsTrim s.name) with ⟨o, w1⟩
    cases o with
    | submitFailed m =>
      refine ⟨by simp [Call.isMutation], by simp, ?_⟩
      intro _
      exact ⟨rfl, rfl, m, rfl⟩
    | waitFailed m =>
      refine ⟨by simp [Call.isMutation], by simp, ?_⟩
      intro _
      exact ⟨rfl, rfl, m, rfl⟩
    | confirmed =>
      refine ⟨?_, ?_, ?_⟩
      · simp only [List.filter_cons, Call.isMutation, if_true, List.filter_append]
        rw [filter_isMutation_eq_nil _ (loadPeople_calls lib _ _ _),
          filter_isMutation_eq_nil _ (loadExpenses_calls lib _ _ _ _),
          filter_isMutation_eq_nil _ (loadMyName_calls _ _ _ _)]
        rfl
      · intro _
        exact loaders_registration lib (some c) s.isRegistered s.account w1 _
      · intro hne
        exact absurd rfl hne

/-- C9, witness: a newcomer who typed " Alice " on a ledger that confirms is
registered after one `registerPerson("Alice")`; on a ledger that does not
confirm the state is kept. -/
theorem registerPerson_outcomes_witness :
    ((registerPerson refLib () (newcomerOn flakyLedger " Alice ")).calls.filter Call.isMutation
        = [Call.registerPerson "Alice"]
      ∧ (registerPerson refLib () (newcomerOn flakyLedger " Alice ")).state.isRegistered = true)
    ∧ (registerPerson refLib () (newcomerOn unconfirmedLedger " Alice ")).state
        = newcomerOn unconfirmedLedger " Alice " :=
  ⟨⟨((registerPerson_outcomes refLib flakyLedger () (newcomerOn flakyLedger " Alice ") rfl).2
      (by decide)).1,
    ((registerPerson_outcomes refLib flakyLedger () (newcomerOn flakyLedger " Alice ") rfl).2
      (by decide)).2.1 rfl⟩,
   (((registerPerson_outcomes refLib unconfirmedLedger ()
      (newcomerOn unconfirmedLedger " Alice ") rfl).2 (by decide)).2.2 (by decide)).1⟩

/-- C10: with a contract instance and a connected account, when `getPerson`
answers, `checkRegistration` clears `isRegistered` exactly when the wallet
address of the record is the zero address, and otherwise sets it and stores the
name of the record; when `getPerson` throws, the state is the one before the
call. -/
theorem checkRegistration_outcomes {W : Type} (lib : Lib) (c : Contract W) (w : W)
    (s : AppState W) (hc : s.contract = some c) (ha : s.account ≠ "") :
    (∀ person, c.getPerson w s.account = .ok person →
        ((checkRegistration lib w s).state.isRegistered = false ↔
            person.walletAddress = AddressZero)
          ∧ (person.walletAddress ≠ AddressZero →
              (checkRegistration lib w s).state.isRegistered = true
                ∧ (checkRegistration lib w s).state.name = person.name))
      ∧ (∀ e, c.getPerson w s.account = .error e → (checkRegistration lib w s).state = s) := by
  refine ⟨?_, ?_⟩
  · intro person hp
    unfold checkRegistration
    simp only [hc, ha, if_false, hp]
    by_cases hz : person.walletAddress = AddressZero
    · simp [hz]
    · have hb : (person.walletAddress != AddressZero) = true := by simpa using hz
      simp only [hb, if_true]
      rw [(loadMyName_registration _ _ _ _).1, (loadPeople_registration _ _ _ _).1,
        (loadExpenses_registration _ _ _ _ _).1, (loadMyName_registration _ _ _ _).2,
        (loadPeople_registration _ _ _ _).2, (loadExpenses_registration _ _ _ _ _).2]
      simp [hz]
  · intro e he
    unfold checkRegistration
    simp [hc, ha, he]

/-- C10, witness: the account of A has a record on the flaky ledger and ends
registered under the name of the record; an account without a record ends
unregistered. -/
theorem checkRegistration_outcomes_witness :
    ((checkRegistration refLib () (newcomerOn flakyLedger "")).state.isRegistered = true
      ∧ (checkRegistration refLib () (newcomerOn flakyLedger "")).state.name = "Alice")
    ∧ (checkRegistration refLib ()
        { sessionOn flakyLedger with account := "0xD" }).state.isRegistered = false :=
  ⟨((checkRegistration_outcomes refLib flakyLedger () (newcomerOn flakyLedger "") rfl
      (by decide)).1 { name := "Alice", walletAddress := "0xA" } rfl).2 (by decide),
   (((checkRegistration_outcomes refLib flakyLedger ()
      { sessionOn flakyLedger with account := "0xD" } rfl (by decide)).1
      { name := "", walletAddress := AddressZero } rfl).1).2 rfl⟩

end ExpenseTracker
